import Mathlib

/-!
Shallow embedding of the in-place-update feasibility engine of
`controlplane/kubeadm/internal/controllers/inplace_canupdatemachine.go`
(Kubernetes cluster-api), together with proofs of properties stated in the
design document.

Documents (Kubernetes objects serialized to JSON) are modelled by an
inductive `Json` type; byte serialization is treated as the identity on
`Json` values (serialize/parse round-trip), so "byte-for-byte identical"
becomes equality of `Json` values.  Patch payloads stay `String`s because
the source inspects them byte-wise (`len(patch.Patch) == 0`,
`bytes.Equal(patch.Patch, []byte("\x7b\x7d"))`).  The third-party
json-patch library (`github.com/evanphx/json-patch/v5`) is modelled by a
parameter structure `JsonPatchLib` whose operations may fail either with a
regular Go error or with a panic-class fault; the `defer`/`recover`
boundary of `applyPatchToObject` is embedded explicitly.
-/

mutual
/-- JSON values, the model of serialized Kubernetes objects and of
`unstructured.Unstructured`. -/
inductive Json where
  | null
  | bool (b : Bool)
  | num (n : Int)
  | str (s : String)
  | arr (elems : JsonArr)
  | obj (fields : JsonObj)
deriving DecidableEq, Repr

/-- A JSON array (list of values). -/
inductive JsonArr where
  | nil
  | cons (hd : Json) (tl : JsonArr)
deriving DecidableEq, Repr

/-- The field list of a JSON object (association list, first match wins). -/
inductive JsonObj where
  | nil
  | cons (key : String) (val : Json) (tl : JsonObj)
deriving DecidableEq, Repr
end

/-- First-match lookup of a key in the field list of a JSON object. -/
def JsonObj.lookupField : JsonObj → String → Option Json
  | .nil, _ => none
  | .cons k v rest, key => if k = key then some v else rest.lookupField key

/-- Replace the first binding of `key` by `v`, or append it if absent. -/
def JsonObj.setField : JsonObj → String → Json → JsonObj
  | .nil, key, v => .cons key v .nil
  | .cons k w rest, key, v =>
    if k = key then .cons key v rest else .cons k w (rest.setField key v)

/-- Remove every binding of `key`. -/
def JsonObj.removeField : JsonObj → String → JsonObj
  | .nil, _ => .nil
  | .cons k w rest, key =>
    if k = key then rest.removeField key else .cons k w (rest.removeField key)

/-- Field access on a JSON value (`none` on non-objects / absent keys). -/
def Json.getField? : Json → String → Option Json
  | .obj fields, key => fields.lookupField key
  | _, _ => none

theorem JsonObj.lookupField_setField_ne :
    ∀ (fs : JsonObj) (key k : String) (v : Json), k ≠ key →
      (fs.setField key v).lookupField k = fs.lookupField k
  | .nil, key, k, v, hne => by
    simp [setField, lookupField, Ne.symm hne]
  | .cons k₀ w rest, key, k, v, hne => by
    by_cases hk : k₀ = key
    · subst hk
      simp [setField, lookupField, Ne.symm hne]
    · simp [setField, hk, lookupField,
        lookupField_setField_ne rest key k v hne]

theorem JsonObj.lookupField_removeField_ne :
    ∀ (fs : JsonObj) (key k : String), k ≠ key →
      (fs.removeField key).lookupField k = fs.lookupField k
  | .nil, key, k, hne => by simp [removeField]
  | .cons k₀ w rest, key, k, hne => by
    by_cases hk : k₀ = key
    · subst hk
      simp [removeField, lookupField, Ne.symm hne,
        lookupField_removeField_ne rest _ k hne]
    · simp [removeField, hk, lookupField,
        lookupField_removeField_ne rest key k hne]

/-! ## runtime.RawExtension and runtimehooksv1.Patch -/

/-- Model of `runtime.RawExtension`: the serialized form (`Raw`) and the
decoded `unstructured` form (`Object`).  The source keeps both set and in
sync (see the note in `convertToRawExtension`). -/
structure RawExtension where
  raw : Json
  object : Json
deriving DecidableEq, Repr

/-- Model of `runtimehooksv1.Patch`: a patch type (`JSONPatch` /
`JSONMergePatch` / anything else) and the raw payload bytes. -/
structure Patch where
  patchType : String
  patch : String
deriving DecidableEq, Repr

/-- One RFC 6902 operation as decoded by `jsonpatch.DecodePatch`. -/
structure JsonPatchOp where
  op : String
  path : String
  value : Option Json
deriving DecidableEq, Repr

/-- Outcome classification for calls into the third-party json-patch
library: a regular Go error, or a panic-class fault that unwinds to the
nearest `recover`. -/
inductive LibErr where
  | goError (msg : String)
  | panicked (msg : String)
deriving DecidableEq, Repr

/-- Model of the third-party `github.com/evanphx/json-patch/v5` library:
`DecodePatch`, `Patch.Apply` and `MergePatch`.  Each call can succeed,
return a Go error, or panic. -/
structure JsonPatchLib where
  decodePatch : String → Except LibErr (List JsonPatchOp)
  applyOps : List JsonPatchOp → Json → Except LibErr Json
  mergePatch : Json → String → Except LibErr Json

/-- Modelled from the spec: `patchutil.PatchSpec`
(`sigs.k8s.io/cluster-api/internal/util/patch`, not part of the provided
sources).  "After a successful non-empty apply, only the spec subtree of
the patched result is copied back into the target document; all other
fields of the target (identity, metadata) are left untouched", and the raw
and structured forms are re-derived together so they never diverge. -/
def PatchSpec (obj : RawExtension) (patchedObject : Json) : Except String RawExtension :=
  match obj.raw, patchedObject with
  | .obj fields, .obj patchedFields =>
    let newRaw : Json :=
      match patchedFields.lookupField "spec" with
      | some specVal => .obj (fields.setField "spec" specVal)
      | none => .obj (fields.removeField "spec")
    .ok { raw := newRaw, object := newRaw }
  | _, _ => .error "document is not a JSON object"

/-- The `switch patch.PatchType` body of `applyPatchToObject`, acting on
the cloned raw bytes.  `.ok none` models the early `return false, nil`
taken for empty patches; `.ok (some patched)` is the patched byte slice;
errors are either wrapped Go errors or panics that unwind to the
function's `recover`. -/
def applyPatchSwitch (lib : JsonPatchLib) (raw : Json) (patch : Patch) :
    Except LibErr (Option Json) :=
  if patch.patchType = "JSONPatch" then
    match lib.decodePatch patch.patch with
    | .error (.goError e) =>
      .error (.goError ("failed to apply patch: error decoding json patch (RFC6902): " ++ e))
    | .error (.panicked r) => .error (.panicked r)
    | .ok jsonPatch =>
      if jsonPatch.length = 0 then
        .ok none
      else
        match lib.applyOps jsonPatch raw with
        | .error (.goError e) =>
          .error (.goError ("failed to apply patch: error applying json patch (RFC6902): " ++ e))
        | .error (.panicked r) => .error (.panicked r)
        | .ok patchedObject => .ok (some patchedObject)
  else if patch.patchType = "JSONMergePatch" then
    if patch.patch = "" ∨ patch.patch = "\x7b\x7d" then
      .ok none
    else
      match lib.mergePatch raw patch.patch with
      | .error (.goError e) =>
        .error (.goError ("failed to apply patch: error applying json merge patch (RFC7386): " ++ e))
      | .error (.panicked r) => .error (.panicked r)
      | .ok patchedObject => .ok (some patchedObject)
  else
    .error (.goError ("failed to apply patch: unknown patchType " ++ patch.patchType))

/-- Model of `applyPatchToObject`.  The Go function mutates `obj` in place
and returns `(objChanged, reterr)`; here the final state of `obj` is
returned as the second component.  The `defer`/`recover` installed after
the `patchType == ""` check converts any panic from the library into the
`observed a panic when applying patch` error. -/
def applyPatchToObject (lib : JsonPatchLib) (obj : RawExtension) (patch : Patch) :
    Except String Bool × RawExtension :=
  if patch.patchType = "" then
    (.error "failed to apply patch: patchType is not set", obj)
  else
    match applyPatchSwitch lib obj.raw patch with
    | .error (.goError e) => (.error e, obj)
    | .error (.panicked r) =>
      (.error ("observed a panic when applying patch: " ++ r), obj)
    | .ok none => (.ok false, obj)
    | .ok (some patchedObject) =>
      match PatchSpec obj patchedObject with
      | .error e => (.error ("failed to apply patch to object: " ++ e), obj)
      | .ok patchedExt => (.ok true, patchedExt)

/-! ## Machine objects and marshalling -/

/-- The part of `metav1.ObjectMeta` that `cleanupMachine` keeps: name,
namespace, labels, annotations.  (`namespace` is a Lean keyword, hence
`namespaceName`.) -/
structure ObjectMeta where
  name : String
  namespaceName : String
  labels : List (String × String)
  annotations : List (String × String)
deriving DecidableEq, Repr

/-- Model of `clusterv1.Machine` after `cleanupMachine`: type identity,
cleaned-up metadata and the spec (kept as a JSON document since only its
deep structure matters here). -/
structure Machine where
  apiVersion : String
  kind : String
  metadata : ObjectMeta
  spec : Json
deriving DecidableEq, Repr

/-- JSON object encoding a string-to-string map (labels / annotations). -/
def stringPairsToJsonObj : List (String × String) → JsonObj
  | [] => .nil
  | (k, v) :: rest => .cons k (.str v) (stringPairsToJsonObj rest)

/-- `json.Marshal` of a cleaned-up Machine. -/
def machineToJson (m : Machine) : Json :=
  .obj (.cons "apiVersion" (.str m.apiVersion)
    (.cons "kind" (.str m.kind)
      (.cons "metadata" (.obj
        (.cons "name" (.str m.metadata.name)
          (.cons "namespace" (.str m.metadata.namespaceName)
            (.cons "labels" (.obj (stringPairsToJsonObj m.metadata.labels))
              (.cons "annotations" (.obj (stringPairsToJsonObj m.metadata.annotations)) .nil)))))
        (.cons "spec" m.spec .nil))))

/-- String field with Go's zero-value default, as `json.Unmarshal` fills
string struct fields. -/
def Json.getStringD (j : Json) (key : String) : String :=
  match j.getField? key with
  | some (.str s) => s
  | _ => ""

/-- Decode a JSON object into a string-to-string map; fails (like
`json.Unmarshal`) when a value is not a string. -/
def jsonObjToStringPairs : JsonObj → Option (List (String × String))
  | .nil => some []
  | .cons k (.str v) rest => (jsonObjToStringPairs rest).map (fun ps => (k, v) :: ps)
  | .cons _ _ _ => none

/-- `json.Unmarshal` of machine bytes into a fresh `clusterv1.Machine`
(used by `applyPatchToMachine` because unmarshalling into the existing
value would not unset fields). -/
def jsonToMachine (j : Json) : Except String Machine :=
  match j with
  | .obj _ =>
    let md : Json :=
      match j.getField? "metadata" with
      | some m => m
      | none => .obj .nil
    let labelsOpt : Option (List (String × String)) :=
      match md.getField? "labels" with
      | some (.obj fs) => jsonObjToStringPairs fs
      | some .null => some []
      | none => some []
      | _ => none
    let annotationsOpt : Option (List (String × String)) :=
      match md.getField? "annotations" with
      | some (.obj fs) => jsonObjToStringPairs fs
      | some .null => some []
      | none => some []
      | _ => none
    match labelsOpt, annotationsOpt with
    | some ls, some anns =>
      .ok {
        apiVersion := j.getStringD "apiVersion"
        kind := j.getStringD "kind"
        metadata := {
          name := md.getStringD "name"
          namespaceName := md.getStringD "namespace"
          labels := ls
          annotations := anns }
        spec :=
          match j.getField? "spec" with
          | some s => s
          | none => .obj .nil }
    | _, _ => .error "json: cannot unmarshal object into Machine"
  | _ => .error "json: cannot unmarshal value into Machine"

/-- Model of `convertToRawExtension`: `json.Marshal` plus decoding into an
`Unstructured`; serialization is the identity on `Json` values, so both
`Raw` and `Object` are the same value (the source always sets both, see
its note). -/
def convertToRawExtension (objectJson : Json) : RawExtension :=
  { raw := objectJson, object := objectJson }

/-- Model of `applyPatchToMachine`: round-trip the Machine through its
serialized form, apply the patch there, and on a change decode the
patched bytes into a fresh Machine. -/
def applyPatchToMachine (lib : JsonPatchLib) (currentMachine : Machine)
    (machinePatch : Patch) : Except String Machine :=
  let currentMachineRaw := convertToRawExtension (machineToJson currentMachine)
  match applyPatchToObject lib currentMachineRaw machinePatch with
  | (.error e, _) => .error e
  | (.ok false, _) => .ok currentMachine
  | (.ok true, patchedRaw) =>
    match jsonToMachine patchedRaw.raw with
    | .error e => .error e
    | .ok patchedCurrentMachine => .ok patchedCurrentMachine

/-! ## CanUpdateMachine request / response -/

/-- Model of `runtimehooksv1.CanUpdateMachineRequestObjects`. -/
structure CanUpdateMachineRequestObjects where
  machine : Machine
  bootstrapConfig : RawExtension
  infrastructureMachine : RawExtension
deriving DecidableEq, Repr

/-- Model of `runtimehooksv1.CanUpdateMachineRequest`. -/
structure CanUpdateMachineRequest where
  current : CanUpdateMachineRequestObjects
  desired : CanUpdateMachineRequestObjects
deriving DecidableEq, Repr

/-- Model of `runtimehooksv1.CanUpdateMachineResponse`: up to three
optional patches (`none` models a patch for which `IsDefined()` is
false). -/
structure CanUpdateMachineResponse where
  machinePatch : Option Patch
  bootstrapConfigPatch : Option Patch
  infrastructureMachinePatch : Option Patch
deriving DecidableEq, Repr

/-- Model of `applyPatchesToRequest`: apply the response's patches (when
defined) to the three current-side objects of the request, in order
Machine, BootstrapConfig, InfrastructureMachine, stopping at the first
error. -/
def applyPatchesToRequest (lib : JsonPatchLib) (req : CanUpdateMachineRequest)
    (resp : CanUpdateMachineResponse) : Except String CanUpdateMachineRequest :=
  let afterMachine : Except String CanUpdateMachineRequest :=
    match resp.machinePatch with
    | none => .ok req
    | some p =>
      match applyPatchToMachine lib req.current.machine p with
      | .error e => .error e
      | .ok m => .ok { req with current := { req.current with machine := m } }
  match afterMachine with
  | .error e => .error e
  | .ok req1 =>
    let afterBootstrap : Except String CanUpdateMachineRequest :=
      match resp.bootstrapConfigPatch with
      | none => .ok req1
      | some p =>
        match applyPatchToObject lib req1.current.bootstrapConfig p with
        | (.error e, _) => .error e
        | (.ok _, obj) =>
          .ok { req1 with current := { req1.current with bootstrapConfig := obj } }
    match afterBootstrap with
    | .error e => .error e
    | .ok req2 =>
      match resp.infrastructureMachinePatch with
      | none => .ok req2
      | some p =>
        match applyPatchToObject lib req2.current.infrastructureMachine p with
        | (.error e, _) => .error e
        | (.ok _, obj) =>
          .ok { req2 with current := { req2.current with infrastructureMachine := obj } }

/-! ## Spec comparator -/

/-- Modelled from the spec: `compare.Diff`
(`sigs.k8s.io/cluster-api/internal/util/compare`, not part of the provided
sources): "equal only on deep structural equality", and on mismatch "a
rendered diff string usable directly in a human-readable reason".  The
concrete rendered text (go-cmp output) is abstracted to a fixed
placeholder string. -/
def compareDiff (a b : Json) : Except String (Bool × String) :=
  if a = b then .ok (true, "") else .ok (false, "spec differs between current and desired")

/-- Model of `matchesMachineSpec`: compare the two Machine specs, wrapped
in a minimal envelope holding only the spec. -/
def matchesMachineSpec (patched desired : Machine) : Except String (Bool × String) :=
  compareDiff (.obj (.cons "spec" patched.spec .nil)) (.obj (.cons "spec" desired.spec .nil))

/-- Model of `matchesUnstructuredSpec`: compare the `spec` entries of the
two decoded objects, wrapped in a minimal envelope.  A missing `spec` key
is Go's nil map entry, modelled as `Json.null`.  The
object-is-an-`Unstructured` cast always succeeds in this model, as the
source notes it does for requests built by `createRequest` and
`applyPatchToObject`. -/
def matchesUnstructuredSpec (patched desired : RawExtension) : Except String (Bool × String) :=
  let specEnvelope (u : Json) : Json :=
    .obj (.cons "spec"
      (match u.getField? "spec" with
       | some s => s
       | none => .null) .nil)
  compareDiff (specEnvelope patched.object) (specEnvelope desired.object)

/-- The `Kind` of the decoded object, used in diff reasons for the
InfrastructureMachine. -/
def RawExtension.objectKind (re : RawExtension) : String :=
  match re.object.getField? "kind" with
  | some (.str s) => s
  | _ => ""

/-- Model of `matchesMachine`: check the three subject resources and
collect one reason per non-matching resource. -/
def matchesMachine (req : CanUpdateMachineRequest) : Except String (Bool × List String) :=
  match matchesMachineSpec req.current.machine req.desired.machine with
  | .error e => .error ("failed to match Machine: " ++ e)
  | .ok (machineMatch, machineDiff) =>
    match matchesUnstructuredSpec req.current.bootstrapConfig req.desired.bootstrapConfig with
    | .error e => .error ("failed to match KubeadmConfig: " ++ e)
    | .ok (bootstrapMatch, bootstrapDiff) =>
      match matchesUnstructuredSpec req.current.infrastructureMachine
          req.desired.infrastructureMachine with
      | .error e =>
        .error ("failed to match " ++ req.current.infrastructureMachine.objectKind ++ ": " ++ e)
      | .ok (infraMatch, infraDiff) =>
        let reasons : List String :=
          (if machineMatch then []
           else ["Machine cannot be updated in-place: " ++ machineDiff]) ++
          (if bootstrapMatch then []
           else ["KubeadmConfig cannot be updated in-place: " ++ bootstrapDiff]) ++
          (if infraMatch then []
           else [req.current.infrastructureMachine.objectKind ++
             " cannot be updated in-place: " ++ infraDiff])
        if reasons.length > 0 then .ok (false, reasons) else .ok (true, [])

/-! ## Reconciler, orchestrator and feasibility gate -/

/-- Model of `internal.UpToDateResult`, restricted to the five object
references `canUpdateMachine` checks for nil.  The objects' contents are
irrelevant here because `createRequest` (which consumes them through
external dry-run collaborators) is modelled by its outcome. -/
structure UpToDateResult where
  desiredMachine : Option Machine
  currentInfraMachine : Option Json
  desiredInfraMachine : Option Json
  currentKubeadmConfig : Option Json
  desiredKubeadmConfig : Option Json
deriving Repr

/-- Model of one `KubeadmControlPlaneReconciler` invocation context: the
test-only override hooks, the InPlaceUpdates feature gate, the
RuntimeClient (`GetAllExtensions`, `CallExtension`), the outcome of
`createRequest` (which calls the external SSA dry-run collaborators), and
the json-patch library. -/
structure ReconcilerModel where
  overrideCanUpdateMachineFunc : Option (Except String Bool)
  overrideCanExtensionsUpdateMachine : Option (Except String (Bool × List String))
  inPlaceUpdatesEnabled : Bool
  getAllExtensions : Except String (List String)
  createRequest : Except String CanUpdateMachineRequest
  callExtension : String → CanUpdateMachineRequest → Except String CanUpdateMachineResponse
  lib : JsonPatchLib

/-- The `for _, extensionHandler := range extensionHandlers` loop of
`canExtensionsUpdateMachine`: call the extension, apply its patches to the
request, re-check convergence; return on a match (with nil reasons) or an
error; after exhausting the handlers return not-eligible with the reasons
from the last round. -/
def extensionRounds (r : ReconcilerModel) (req : CanUpdateMachineRequest)
    (reasons : List String) : List String → Except String (Bool × List String)
  | [] => .ok (false, reasons)
  | extensionHandler :: rest =>
    match r.callExtension extensionHandler req with
    | .error e => .error e
    | .ok resp =>
      match applyPatchesToRequest r.lib req resp with
      | .error e =>
        .error ("failed to apply patches from extension " ++ extensionHandler ++
          " to the CanUpdateMachine request: " ++ e)
      | .ok req' =>
        match matchesMachine req' with
        | .error e =>
          .error ("failed to compare current and desired objects after calling extension " ++
            extensionHandler ++ ": " ++ e)
        | .ok (isMatch, rs) =>
          if isMatch then .ok (true, [])
          else extensionRounds r req' rs rest

/-- Model of `canExtensionsUpdateMachine`: build the request (via the
modelled `createRequest` outcome) and run the extension rounds. -/
def canExtensionsUpdateMachine (r : ReconcilerModel) (extensionHandlers : List String) :
    Except String (Bool × List String) :=
  match r.overrideCanExtensionsUpdateMachine with
  | some override => override
  | none =>
    match r.createRequest with
    | .error e => .error ("failed to generate CanUpdateMachine request: " ++ e)
    | .ok req => extensionRounds r req [] extensionHandlers

/-- Model of `canUpdateMachine`, the feasibility gate.  `.ok b` is Go's
`(b, nil)`; `.error e` is `(false, err)`. -/
def canUpdateMachine (r : ReconcilerModel) (machineUpToDateResult : UpToDateResult) :
    Except String Bool :=
  match r.overrideCanUpdateMachineFunc with
  | some override => override
  | none =>
    if !r.inPlaceUpdatesEnabled then .ok false
    else if machineUpToDateResult.desiredMachine.isNone ∨
        machineUpToDateResult.currentInfraMachine.isNone ∨
        machineUpToDateResult.desiredInfraMachine.isNone ∨
        machineUpToDateResult.currentKubeadmConfig.isNone ∨
        machineUpToDateResult.desiredKubeadmConfig.isNone then .ok false
    else
      match r.getAllExtensions with
      | .error e => .error e
      | .ok extensionHandlers =>
        if extensionHandlers.length = 0 then .ok false
        else if extensionHandlers.length > 1 then
          .error ("found multiple CanUpdateMachine hooks (" ++
            String.intercalate "," extensionHandlers ++ ") (more than one is not supported yet)")
        else
          match canExtensionsUpdateMachine r extensionHandlers with
          | .error e => .error e
          | .ok (canUpdate, _) => if canUpdate then .ok true else .ok false

/-! ## Round-by-round execution relation -/

/-- Specification relation for the extension loop: starting from request
`req` with accumulated reasons `reasons`, every handler in `hs` is called
successfully, its patches apply successfully, and the convergence check
after each round reports a mismatch; the loop state afterwards is
`(reqF, reasonsF)` (so for nonempty `hs`, `reasonsF` is the convergence
check output of the last round). -/
inductive RoundsReach (r : ReconcilerModel) :
    CanUpdateMachineRequest → List String → List String →
    CanUpdateMachineRequest → List String → Prop
  | refl (req : CanUpdateMachineRequest) (reasons : List String) :
      RoundsReach r req reasons [] req reasons
  | step {req req' reqF : CanUpdateMachineRequest}
      {reasons rs reasonsF : List String}
      {eh : String} {hs : List String} {resp : CanUpdateMachineResponse}
      (hcall : r.callExtension eh req = .ok resp)
      (happly : applyPatchesToRequest r.lib req resp = .ok req')
      (hmatch : matchesMachine req' = .ok (false, rs))
      (hrest : RoundsReach r req' rs hs reqF reasonsF) :
      RoundsReach r req reasons (eh :: hs) reqF reasonsF

theorem extensionRounds_append_of_roundsReach {r : ReconcilerModel}
    {req reqF : CanUpdateMachineRequest} {reasons reasonsF : List String}
    {hs : List String}
    (h : RoundsReach r req reasons hs reqF reasonsF) (rest : List String) :
    extensionRounds r req reasons (hs ++ rest) = extensionRounds r reqF reasonsF rest := by
  induction h with
  | refl req reasons => rfl
  | step hcall happly hmatch hrest ih =>
    simp only [List.cons_append, extensionRounds, hcall, happly, hmatch]
    simpa using ih

theorem matchesMachine_last_of_roundsReach {r : ReconcilerModel}
    {req reqF : CanUpdateMachineRequest} {reasons reasonsF : List String}
    {hs : List String}
    (h : RoundsReach r req reasons hs reqF reasonsF) (hne : hs ≠ []) :
    matchesMachine reqF = .ok (false, reasonsF) := by
  induction h with
  | refl req reasons => exact absurd rfl hne
  | step hcall happly hmatch hrest ih =>
    rename_i hs' _
    cases hs' with
    | nil => cases hrest; exact hmatch
    | cons a l => exact ih (by simp)

/-! ## Concrete sample values used in witnesses -/

/-- A json-patch library model for which every call succeeds and the
empty-decode result is the empty operation list. -/
def trivialLib : JsonPatchLib :=
  { decodePatch := fun _ => .ok []
    applyOps := fun _ raw => .ok raw
    mergePatch := fun raw _ => .ok raw }

def sampleSpecA : Json := .obj (.cons "replicas" (.num 3) .nil)

def sampleSpecB : Json := .obj (.cons "replicas" (.num 5) .nil)

def sampleBootstrapJson (spec : Json) : Json :=
  .obj (.cons "apiVersion" (.str "bootstrap.cluster.x-k8s.io/v1beta2")
    (.cons "kind" (.str "KubeadmConfig")
      (.cons "metadata" (.obj (.cons "name" (.str "m1-bootstrap") .nil))
        (.cons "spec" spec .nil))))

def sampleInfraJson (spec : Json) : Json :=
  .obj (.cons "apiVersion" (.str "infrastructure.cluster.x-k8s.io/v1beta2")
    (.cons "kind" (.str "DockerMachine")
      (.cons "metadata" (.obj (.cons "name" (.str "m1-infra") .nil))
        (.cons "spec" spec .nil))))

def sampleMachine (spec : Json) : Machine :=
  { apiVersion := "cluster.x-k8s.io/v1beta2"
    kind := "Machine"
    metadata := { name := "m1", namespaceName := "default", labels := [], annotations := [] }
    spec := spec }

def sampleObjects (machineSpec bootstrapSpec infraSpec : Json) :
    CanUpdateMachineRequestObjects :=
  { machine := sampleMachine machineSpec
    bootstrapConfig := convertToRawExtension (sampleBootstrapJson bootstrapSpec)
    infrastructureMachine := convertToRawExtension (sampleInfraJson infraSpec) }

/-- A request whose current and desired specs already agree everywhere. -/
def reqConverged : CanUpdateMachineRequest :=
  { current := sampleObjects sampleSpecA sampleSpecA sampleSpecA
    desired := sampleObjects sampleSpecA sampleSpecA sampleSpecA }

/-- A request whose KubeadmConfig spec differs between current and
desired. -/
def reqDiff : CanUpdateMachineRequest :=
  { current := sampleObjects sampleSpecA sampleSpecA sampleSpecA
    desired := sampleObjects sampleSpecA sampleSpecB sampleSpecA }

/-- An extension response proposing no patch for any resource. -/
def noPatchResp : CanUpdateMachineResponse :=
  { machinePatch := none, bootstrapConfigPatch := none, infrastructureMachinePatch := none }

/-- An `UpToDateResult` with all five objects present. -/
def fullUpToDate : UpToDateResult :=
  { desiredMachine := some (sampleMachine sampleSpecA)
    currentInfraMachine := some (sampleInfraJson sampleSpecA)
    desiredInfraMachine := some (sampleInfraJson sampleSpecA)
    currentKubeadmConfig := some (sampleBootstrapJson sampleSpecA)
    desiredKubeadmConfig := some (sampleBootstrapJson sampleSpecB) }

/-- Baseline reconciler model: feature gate on, one extension registered,
request already converged, extension proposing no patches. -/
def baseModel : ReconcilerModel :=
  { overrideCanUpdateMachineFunc := none
    overrideCanExtensionsUpdateMachine := none
    inPlaceUpdatesEnabled := true
    getAllExtensions := .ok ["ext-a"]
    createRequest := .ok reqConverged
    callExtension := fun _ _ => .ok noPatchResp
    lib := trivialLib }

/-! ## Claim theorems -/

def gateOffModel : ReconcilerModel :=
  { baseModel with inPlaceUpdatesEnabled := false }

def twoHooksGateOffModel : ReconcilerModel :=
  { baseModel with
    inPlaceUpdatesEnabled := false
    getAllExtensions := .ok ["ext-a", "ext-b"] }

def twoHooksModel : ReconcilerModel :=
  { baseModel with getAllExtensions := .ok ["ext-a", "ext-b"] }

/-- C1: whenever the Machine is merely ineligible for in-place update —
the InPlaceUpdates feature gate disabled, any of the five snapshot objects
nil, zero CanUpdateMachine extensions registered, or the extensions
exhausted without convergence — `canUpdateMachine` returns `(false, nil)`,
never an error. -/
theorem canUpdateMachine_ineligible_false_nil
    (r : ReconcilerModel) (u : UpToDateResult)
    (hov : r.overrideCanUpdateMachineFunc = none)
    (hcase :
      r.inPlaceUpdatesEnabled = false ∨
      u.desiredMachine = none ∨
      u.currentInfraMachine = none ∨
      u.desiredInfraMachine = none ∨
      u.currentKubeadmConfig = none ∨
      u.desiredKubeadmConfig = none ∨
      r.getAllExtensions = .ok [] ∨
      (∃ eh rs, r.getAllExtensions = .ok [eh] ∧
        canExtensionsUpdateMachine r [eh] = .ok (false, rs))) :
    canUpdateMachine r u = .ok false := by
  rcases hcase with h | h | h | h | h | h | h | ⟨eh, rs, hget, hcan⟩
  · simp [canUpdateMachine, hov, h]
  · simp [canUpdateMachine, hov, h]
  · simp [canUpdateMachine, hov, h]
  · simp [canUpdateMachine, hov, h]
  · simp [canUpdateMachine, hov, h]
  · simp [canUpdateMachine, hov, h]
  · simp [canUpdateMachine, hov, h]
  · simp [canUpdateMachine, hov, hget, hcan]

/-- Witness for C1 at a concrete model with the feature gate disabled. -/
theorem canUpdateMachine_ineligible_false_nil_witness :
    gateOffModel.overrideCanUpdateMachineFunc = none ∧
    gateOffModel.inPlaceUpdatesEnabled = false ∧
    canUpdateMachine gateOffModel fullUpToDate = .ok false :=
  ⟨rfl, rfl,
    canUpdateMachine_ineligible_false_nil gateOffModel fullUpToDate rfl (Or.inl rfl)⟩

/-- C2 counterexample: with the InPlaceUpdates feature gate disabled and
two CanUpdateMachine extension handlers registered, `canUpdateMachine`
returns `(false, nil)` — not `(false, error)` as the claim states for
every invocation with more than one registered handler. -/
theorem canUpdateMachine_multiple_hooks_counterexample :
    twoHooksGateOffModel.getAllExtensions = .ok ["ext-a", "ext-b"] ∧
    canUpdateMachine twoHooksGateOffModel fullUpToDate = .ok false :=
  ⟨rfl, rfl⟩

/-- C2 (amended): when the override hook is unset, the InPlaceUpdates
feature gate is enabled, all five snapshot objects are present and more
than one CanUpdateMachine extension handler is registered,
`canUpdateMachine` returns `(false, error)`, and the result is the same
for every extension-calling collaborator (no extension handler is
invoked). -/
theorem canUpdateMachine_multiple_hooks_error
    (r : ReconcilerModel) (u : UpToDateResult) (hs : List String)
    (hov : r.overrideCanUpdateMachineFunc = none)
    (hgate : r.inPlaceUpdatesEnabled = true)
    (h1 : u.desiredMachine.isNone = false)
    (h2 : u.currentInfraMachine.isNone = false)
    (h3 : u.desiredInfraMachine.isNone = false)
    (h4 : u.currentKubeadmConfig.isNone = false)
    (h5 : u.desiredKubeadmConfig.isNone = false)
    (hget : r.getAllExtensions = .ok hs)
    (hlen : 1 < hs.length) :
    ∀ callExt, canUpdateMachine { r with callExtension := callExt } u =
      .error ("found multiple CanUpdateMachine hooks (" ++ String.intercalate "," hs ++
        ") (more than one is not supported yet)") := by
  intro callExt
  have h0 : ¬ hs.length = 0 := by omega
  simp [canUpdateMachine, hov, hgate, h1, h2, h3, h4, h5, hget, h0, hlen]

/-- Witness for the amended C2 at a concrete model with two registered
handlers. -/
theorem canUpdateMachine_multiple_hooks_error_witness :
    twoHooksModel.getAllExtensions = .ok ["ext-a", "ext-b"] ∧
    canUpdateMachine twoHooksModel fullUpToDate =
      .error ("found multiple CanUpdateMachine hooks (" ++
        String.intercalate "," ["ext-a", "ext-b"] ++
        ") (more than one is not supported yet)") :=
  ⟨rfl,
    canUpdateMachine_multiple_hooks_error twoHooksModel fullUpToDate ["ext-a", "ext-b"]
      rfl rfl rfl rfl rfl rfl rfl rfl (by decide) twoHooksModel.callExtension⟩

/-- C3: an empty JSON-Patch operation list, or an empty / empty-object
JSON-Merge-Patch payload, yields `(changed = false, nil)` and leaves the
target RawExtension byte-for-byte identical. -/
theorem applyPatchToObject_empty_patch_noop
    (lib : JsonPatchLib) (obj : RawExtension) (patch : Patch)
    (hempty :
      (patch.patchType = "JSONPatch" ∧ lib.decodePatch patch.patch = .ok []) ∨
      (patch.patchType = "JSONMergePatch" ∧
        (patch.patch = "" ∨ patch.patch = "\x7b\x7d"))) :
    applyPatchToObject lib obj patch = (.ok false, obj) := by
  rcases hempty with ⟨hty, hdec⟩ | ⟨hty, hpay | hpay⟩
  · simp [applyPatchToObject, applyPatchSwitch, hty, hdec]
  · simp [applyPatchToObject, applyPatchSwitch, hty, hpay]
  · simp [applyPatchToObject, applyPatchSwitch, hty, hpay]

/-- Witness for C3: an empty JSON-Patch operation list on a concrete
document. -/
theorem applyPatchToObject_empty_patch_noop_witness :
    trivialLib.decodePatch "[]" = .ok [] ∧
    applyPatchToObject trivialLib (convertToRawExtension (sampleBootstrapJson sampleSpecA))
      { patchType := "JSONPatch", patch := "[]" } =
      (.ok false, convertToRawExtension (sampleBootstrapJson sampleSpecA)) :=
  ⟨rfl, applyPatchToObject_empty_patch_noop trivialLib _ _ (Or.inl ⟨rfl, rfl⟩)⟩

/-- C4: an unset (empty) or unknown patchType is a hard error, never a
no-op success, and the target document is left unchanged. -/
theorem applyPatchToObject_unknown_patchType_error
    (lib : JsonPatchLib) (obj : RawExtension) (patch : Patch)
    (h1 : patch.patchType ≠ "JSONPatch")
    (h2 : patch.patchType ≠ "JSONMergePatch") :
    ∃ e, applyPatchToObject lib obj patch = (.error e, obj) := by
  by_cases h0 : patch.patchType = ""
  · refine ⟨"failed to apply patch: patchType is not set", ?_⟩
    simp [applyPatchToObject, h0]
  · refine ⟨"failed to apply patch: unknown patchType " ++ patch.patchType, ?_⟩
    simp [applyPatchToObject, applyPatchSwitch, h0, h1, h2]

/-- Witness for C4: an unsupported patchType on a concrete document. -/
theorem applyPatchToObject_unknown_patchType_error_witness :
    ("StrategicMergePatch" : String) ≠ "JSONPatch" ∧
    ("StrategicMergePatch" : String) ≠ "JSONMergePatch" ∧
    ∃ e, applyPatchToObject trivialLib (convertToRawExtension (sampleInfraJson sampleSpecA))
      { patchType := "StrategicMergePatch", patch := "x" } =
      (.error e, convertToRawExtension (sampleInfraJson sampleSpecA)) :=
  ⟨by decide, by decide,
    applyPatchToObject_unknown_patchType_error trivialLib _ _ (by decide) (by decide)⟩

theorem PatchSpec_frame {obj : RawExtension} {p : Json} {obj' : RawExtension}
    (h : PatchSpec obj p = .ok obj') :
    ∀ k, k ≠ "spec" → obj'.raw.getField? k = obj.raw.getField? k := by
  intro k hk
  unfold PatchSpec at h
  rcases hobj : obj.raw with _ | b | n | s | elems | fields <;> rw [hobj] at h
  · exact Except.noConfusion h
  · exact Except.noConfusion h
  · exact Except.noConfusion h
  · exact Except.noConfusion h
  · exact Except.noConfusion h
  · rcases hp : p with _ | _ | _ | _ | _ | pfields <;> rw [hp] at h
    · exact Except.noConfusion h
    · exact Except.noConfusion h
    · exact Except.noConfusion h
    · exact Except.noConfusion h
    · exact Except.noConfusion h
    · dsimp only at h
      rcases hspec : pfields.lookupField "spec" with _ | v <;> rw [hspec] at h
      · injection h with h
        subst h
        simp [Json.getField?,
          JsonObj.lookupField_removeField_ne fields "spec" k hk]
      · injection h with h
        subst h
        simp [Json.getField?,
          JsonObj.lookupField_setField_ne fields "spec" k v hk]

theorem applyPatchToObject_ok_true_inv {lib : JsonPatchLib} {obj : RawExtension}
    {patch : Patch} {obj' : RawExtension}
    (hok : applyPatchToObject lib obj patch = (.ok true, obj')) :
    ∃ p, applyPatchSwitch lib obj.raw patch = .ok (some p) ∧ PatchSpec obj p = .ok obj' := by
  unfold applyPatchToObject at hok
  by_cases h0 : patch.patchType = ""
  · rw [if_pos h0] at hok
    simp at hok
  · rw [if_neg h0] at hok
    rcases hsw : applyPatchSwitch lib obj.raw patch with le | op
    · rcases le with m | m <;> rw [hsw] at hok <;> simp at hok
    · rcases op with _ | p
      · rw [hsw] at hok
        simp at hok
      · rw [hsw] at hok
        dsimp only at hok
        refine ⟨p, rfl, ?_⟩
        rcases hps : PatchSpec obj p with pe | pext <;> rw [hps] at hok
        · simp at hok
        · simp at hok
          rw [hok]

/-- A json-patch library model whose merge patch replaces the document's
spec with `sampleSpecB`. -/
def mergeLib : JsonPatchLib :=
  { decodePatch := fun _ => .ok []
    applyOps := fun _ raw => .ok raw
    mergePatch := fun raw _ =>
      .ok (match raw with
        | .obj fields => .obj (fields.setField "spec" sampleSpecB)
        | other => other) }

/-- A json-patch library model whose apply panics, modelling an internal
fault of the third-party patch code. -/
def panicLib : JsonPatchLib :=
  { decodePatch := fun _ => .ok [{ op := "add", path := "/spec/x", value := some .null }]
    applyOps := fun _ _ => .error (.panicked "runtime error: invalid memory address")
    mergePatch := fun raw _ => .ok raw }

/-- C5: for every successful non-empty patch application, only the spec
subtree of the patched intermediate result is copied back into the target
document; every non-spec field — in particular apiVersion, kind and the
metadata object holding name, namespace, labels and annotations — is
unchanged regardless of what the patch payload touched. -/
theorem applyPatchToObject_success_only_spec
    (lib : JsonPatchLib) (obj : RawExtension) (patch : Patch) (obj' : RawExtension)
    (hok : applyPatchToObject lib obj patch = (.ok true, obj')) :
    (∀ k, k ≠ "spec" → obj'.raw.getField? k = obj.raw.getField? k) ∧
    obj'.raw.getField? "apiVersion" = obj.raw.getField? "apiVersion" ∧
    obj'.raw.getField? "kind" = obj.raw.getField? "kind" ∧
    obj'.raw.getField? "metadata" = obj.raw.getField? "metadata" := by
  obtain ⟨p, hsw, hps⟩ := applyPatchToObject_ok_true_inv hok
  have hframe := PatchSpec_frame hps
  exact ⟨hframe, hframe _ (by decide), hframe _ (by decide), hframe _ (by decide)⟩

/-- Witness for C5: a merge patch that replaces the spec of a concrete
KubeadmConfig document; metadata is untouched. -/
theorem applyPatchToObject_success_only_spec_witness :
    applyPatchToObject mergeLib (convertToRawExtension (sampleBootstrapJson sampleSpecA))
      { patchType := "JSONMergePatch", patch := "\x7b\"spec\":\x7b\"replicas\":5\x7d\x7d" } =
      (.ok true, convertToRawExtension (sampleBootstrapJson sampleSpecB)) ∧
    (convertToRawExtension (sampleBootstrapJson sampleSpecB)).raw.getField? "metadata" =
      (convertToRawExtension (sampleBootstrapJson sampleSpecA)).raw.getField? "metadata" :=
  ⟨rfl, (applyPatchToObject_success_only_spec mergeLib
    (convertToRawExtension (sampleBootstrapJson sampleSpecA))
    { patchType := "JSONMergePatch", patch := "\x7b\"spec\":\x7b\"replicas\":5\x7d\x7d" }
    (convertToRawExtension (sampleBootstrapJson sampleSpecB)) rfl).2.2.2⟩

/-- C6: a panic raised during patch application is caught at the boundary
of `applyPatchToObject` and converted into a returned error, and whenever
the function returns an error (panic recovery included) the target
document is unchanged — mutation happens only on confirmed successful
apply. -/
theorem applyPatchToObject_panic_caught_error_frame
    (lib : JsonPatchLib) (obj : RawExtension) (patch : Patch) :
    (∀ r, applyPatchSwitch lib obj.raw patch = .error (.panicked r) →
      applyPatchToObject lib obj patch =
        (.error ("observed a panic when applying patch: " ++ r), obj)) ∧
    (∀ e, (applyPatchToObject lib obj patch).1 = .error e →
      (applyPatchToObject lib obj patch).2 = obj) := by
  constructor
  · intro r hsw
    have h0 : patch.patchType ≠ "" := by
      intro h0
      simp [applyPatchSwitch, h0] at hsw
    unfold applyPatchToObject
    rw [if_neg h0, hsw]
  · intro e herr
    unfold applyPatchToObject at herr ⊢
    by_cases h0 : patch.patchType = ""
    · rw [if_pos h0]
    · rw [if_neg h0] at herr ⊢
      rcases hsw : applyPatchSwitch lib obj.raw patch with le | op
      · rcases le with m | m <;> rfl
      · rcases op with _ | p
        · rfl
        · rw [hsw] at herr
          dsimp only at herr ⊢
          rcases hps : PatchSpec obj p with pe | pext
          · rfl
          · rw [hps] at herr
            simp at herr

/-- Witness for C6: a concrete library fault that panics inside json-patch
application is converted into an error and the document stays intact. -/
theorem applyPatchToObject_panic_caught_error_frame_witness :
    applyPatchSwitch panicLib (convertToRawExtension (sampleInfraJson sampleSpecA)).raw
      { patchType := "JSONPatch", patch := "[\"bad\"]" } =
      .error (.panicked "runtime error: invalid memory address") ∧
    applyPatchToObject panicLib (convertToRawExtension (sampleInfraJson sampleSpecA))
      { patchType := "JSONPatch", patch := "[\"bad\"]" } =
      (.error ("observed a panic when applying patch: " ++
        "runtime error: invalid memory address"),
       convertToRawExtension (sampleInfraJson sampleSpecA)) :=
  ⟨rfl,
    (applyPatchToObject_panic_caught_error_frame panicLib
      (convertToRawExtension (sampleInfraJson sampleSpecA))
      { patchType := "JSONPatch", patch := "[\"bad\"]" }).1
      "runtime error: invalid memory address" rfl⟩

def earlyExitModel : ReconcilerModel :=
  { baseModel with
    getAllExtensions := .ok ["ext-a", "ext-b"]
    callExtension := fun eh _ =>
      if eh = "ext-a" then .ok noPatchResp else .error "must not be called" }

def exhaustModel : ReconcilerModel :=
  { baseModel with createRequest := .ok reqDiff }

def extDownModel : ReconcilerModel :=
  { baseModel with callExtension := fun _ _ => .error "extension down" }

/-- A response carrying a merge patch for the BootstrapConfig. -/
def fixBootstrapResp : CanUpdateMachineResponse :=
  { machinePatch := none
    bootstrapConfigPatch :=
      some { patchType := "JSONMergePatch", patch := "\x7b\"spec\":\x7b\"replicas\":5\x7d\x7d" }
    infrastructureMachinePatch := none }

/-- C7: if after applying the patches of the handler at position
`pre.length` all three subject resources match on their spec subtrees,
`canExtensionsUpdateMachine` returns `(true, nil, nil)` immediately; the
result is the same for every list `post` of later handlers, which are
never invoked. -/
theorem canExtensionsUpdateMachine_stops_at_convergence
    (r : ReconcilerModel) (req reqI reqI' : CanUpdateMachineRequest)
    (pre : List String) (reasonsI rsm : List String) (eh : String) (post : List String)
    (resp : CanUpdateMachineResponse)
    (hov : r.overrideCanExtensionsUpdateMachine = none)
    (hreq : r.createRequest = .ok req)
    (hpre : RoundsReach r req [] pre reqI reasonsI)
    (hcall : r.callExtension eh reqI = .ok resp)
    (happly : applyPatchesToRequest r.lib reqI resp = .ok reqI')
    (hmatch : matchesMachine reqI' = .ok (true, rsm)) :
    canExtensionsUpdateMachine r (pre ++ eh :: post) = .ok (true, []) := by
  simp only [canExtensionsUpdateMachine, hov, hreq]
  rw [extensionRounds_append_of_roundsReach hpre]
  simp [extensionRounds, hcall, happly, hmatch]

/-- Witness for C7: with two registered handlers, the first call already
converges and the second handler (whose call would error) is skipped. -/
theorem canExtensionsUpdateMachine_stops_at_convergence_witness :
    earlyExitModel.callExtension "ext-a" reqConverged = .ok noPatchResp ∧
    matchesMachine reqConverged = .ok (true, []) ∧
    earlyExitModel.callExtension "ext-b" reqConverged = .error "must not be called" ∧
    canExtensionsUpdateMachine earlyExitModel ["ext-a", "ext-b"] = .ok (true, []) :=
  ⟨rfl, rfl, rfl,
    canExtensionsUpdateMachine_stops_at_convergence earlyExitModel
      reqConverged reqConverged reqConverged [] [] [] "ext-a" ["ext-b"] noPatchResp
      rfl rfl (.refl _ _) rfl rfl rfl⟩

/-- C8: when every handler is called and convergence is never reached,
`canExtensionsUpdateMachine` returns `(false, reasons, nil)` where the
reasons are exactly the convergence-check output of the final round
(earlier-round reasons are superseded). -/
theorem canExtensionsUpdateMachine_exhausted_last_reasons
    (r : ReconcilerModel) (req reqF : CanUpdateMachineRequest)
    (hs : List String) (reasonsF : List String)
    (hov : r.overrideCanExtensionsUpdateMachine = none)
    (hreq : r.createRequest = .ok req)
    (hne : hs ≠ [])
    (hrounds : RoundsReach r req [] hs reqF reasonsF) :
    canExtensionsUpdateMachine r hs = .ok (false, reasonsF) ∧
    matchesMachine reqF = .ok (false, reasonsF) := by
  constructor
  · simp only [canExtensionsUpdateMachine, hov, hreq]
    have hrw := extensionRounds_append_of_roundsReach hrounds []
    rw [List.append_nil] at hrw
    rw [hrw]
    rfl
  · exact matchesMachine_last_of_roundsReach hrounds hne

/-- Witness for C8: one handler proposing no patch on a request whose
KubeadmConfig spec differs; the returned reasons are the final (only)
round's diff reasons. -/
theorem canExtensionsUpdateMachine_exhausted_last_reasons_witness :
    canExtensionsUpdateMachine exhaustModel ["ext-a"] =
      .ok (false, ["KubeadmConfig cannot be updated in-place: " ++
        "spec differs between current and desired"]) ∧
    matchesMachine reqDiff =
      .ok (false, ["KubeadmConfig cannot be updated in-place: " ++
        "spec differs between current and desired"]) :=
  canExtensionsUpdateMachine_exhausted_last_reasons exhaustModel reqDiff reqDiff ["ext-a"]
    (["KubeadmConfig cannot be updated in-place: " ++
      "spec differs between current and desired"])
    rfl rfl (List.cons_ne_nil _ _) (.step rfl rfl rfl (.refl _ _))

/-- C9: `applyPatchesToRequest` mutates at most the current-side objects
of the request; the desired-side objects are identical before and after
the round. -/
theorem applyPatchesToRequest_desired_unchanged
    (lib : JsonPatchLib) (req : CanUpdateMachineRequest)
    (resp : CanUpdateMachineResponse) (req' : CanUpdateMachineRequest)
    (hok : applyPatchesToRequest lib req resp = .ok req') :
    req'.desired = req.desired := by
  unfold applyPatchesToRequest at hok
  dsimp only at hok
  split at hok
  · exact Except.noConfusion hok
  · rename_i req1 heq1
    have hd1 : req1.desired = req.desired := by
      split at heq1
      · injection heq1 with heq1
        subst heq1
        rfl
      · split at heq1
        · exact Except.noConfusion heq1
        · injection heq1 with heq1
          subst heq1
          rfl
    split at hok
    · exact Except.noConfusion hok
    · rename_i req2 heq2
      have hd2 : req2.desired = req1.desired := by
        split at heq2
        · injection heq2 with heq2
          subst heq2
          rfl
        · split at heq2
          · exact Except.noConfusion heq2
          · injection heq2 with heq2
            subst heq2
            rfl
      have hd3 : req'.desired = req2.desired := by
        split at hok
        · injection hok with hok
          subst hok
          rfl
        · split at hok
          · exact Except.noConfusion hok
          · injection hok with hok
            subst hok
            rfl
      rw [hd3, hd2, hd1]

/-- Witness for C9: a round that patches the current BootstrapConfig spec
leaves the desired side untouched. -/
theorem applyPatchesToRequest_desired_unchanged_witness :
    applyPatchesToRequest mergeLib reqDiff fixBootstrapResp =
      .ok { current := sampleObjects sampleSpecA sampleSpecB sampleSpecA
            desired := sampleObjects sampleSpecA sampleSpecB sampleSpecA } ∧
    ({ current := sampleObjects sampleSpecA sampleSpecB sampleSpecA
       desired := sampleObjects sampleSpecA sampleSpecB sampleSpecA } :
      CanUpdateMachineRequest).desired = reqDiff.desired :=
  ⟨rfl, applyPatchesToRequest_desired_unchanged mergeLib reqDiff fixBootstrapResp
    { current := sampleObjects sampleSpecA sampleSpecB sampleSpecA
      desired := sampleObjects sampleSpecA sampleSpecB sampleSpecA } rfl⟩

/-- C10: the convergence check runs only after an extension call.  With
zero handlers `canExtensionsUpdateMachine` returns `(false, nil, nil)` for
every request (converged or not, convergence is never checked), and with
at least one handler the first extension is invoked even when the request
is already converged at build time: its error surfaces instead of a
convergence result. -/
theorem canExtensionsUpdateMachine_checks_only_after_call
    (r : ReconcilerModel) (req : CanUpdateMachineRequest)
    (hov : r.overrideCanExtensionsUpdateMachine = none)
    (hreq : r.createRequest = .ok req) :
    canExtensionsUpdateMachine r [] = .ok (false, []) ∧
    (∀ eh rest e, matchesMachine req = .ok (true, []) →
      r.callExtension eh req = .error e →
      canExtensionsUpdateMachine r (eh :: rest) = .error e) := by
  constructor
  · simp [canExtensionsUpdateMachine, hov, hreq, extensionRounds]
  · intro eh rest e hconv hcall
    simp [canExtensionsUpdateMachine, hov, hreq, extensionRounds, hcall]

/-- Witness for C10: a request converged at build time still yields
`(false, nil, nil)` with zero handlers, and surfaces the extension error
with one handler. -/
theorem canExtensionsUpdateMachine_checks_only_after_call_witness :
    matchesMachine reqConverged = .ok (true, []) ∧
    canExtensionsUpdateMachine extDownModel [] = .ok (false, []) ∧
    canExtensionsUpdateMachine extDownModel ["ext-a"] = .error "extension down" :=
  ⟨rfl,
    (canExtensionsUpdateMachine_checks_only_after_call extDownModel reqConverged rfl rfl).1,
    (canExtensionsUpdateMachine_checks_only_after_call extDownModel reqConverged rfl rfl).2
      "ext-a" [] "extension down" rfl rfl⟩
